import Mathlib

/-
Verification development for the SafeAssist / RIFD retrieval engine and its
frontend helper layer.

The retrieval engine (vector-index search, per-turn embedding cache, fan-out
coordinator, result curation) is specified in the project's design document;
the repository holds the audit report describing `backend/rag/rag_service.py`
but not the Python module itself, so those components are modelled from the
specification text.  The frontend helpers (`requireRole`, `apiGet`, `apiPost`)
are translated directly from `frontend/roles.js`.

Conventions used throughout:
- floating-point scores and vector components are modelled as rationals;
- Python string slicing `s[:n]` is modelled as `str_take`, taking the first
  `n` characters of the underlying character list;
- the browser's `localStorage` is modelled as a partial map
  `String -> Option String`; a redirect is modelled by returning the target
  URL, and proceeding is modelled by returning `none`;
- external effectful collaborators (the sentence encoder, `fetch`,
  `JSON.stringify`) are passed in as explicit function arguments.
-/

set_option maxRecDepth 16384

/-! ## Rational vectors and similarity scores -/

/-- Inner product of two rational vectors (componentwise product, summed).
Extra components of the longer vector are ignored; all uses pair vectors of
equal length. -/
def dotQ : List ℚ → List ℚ → ℚ
  | [], _ => 0
  | _, [] => 0
  | a :: as, b :: bs => a * b + dotQ as bs

/-- Squared L2 norm of a rational vector. -/
def sqNormQ (v : List ℚ) : ℚ := dotQ v v

/-- Squared L2 distance between two rational vectors. -/
def sqDistQ : List ℚ → List ℚ → ℚ
  | [], _ => 0
  | _, [] => 0
  | a :: as, b :: bs => (a - b) * (a - b) + sqDistQ as bs

/-- Modelled from the spec: the closed tagged variant of index metrics,
`{InnerProduct, NormalizedDistance}`, resolved once at load time by
`_is_ip_index` (the Python source `rag_service.py` is not in the repository;
only the audit report describing it is). -/
inductive IndexMetric where
  | innerProduct
  | normalizedDistance
deriving DecidableEq

/-- Modelled from the spec: the raw score an index of the given metric reports
for a query/stored vector pair — the inner product for an `IndexFlatIP`-style
index, the squared L2 distance for an `IndexFlatL2`-style index. -/
def raw_score : IndexMetric → List ℚ → List ℚ → ℚ
  | .innerProduct, q, v => dotQ q v
  | .normalizedDistance, q, v => sqDistQ q v

/-- Modelled from the spec: the single normalization function per metric
variant converting a raw index score onto the unified similarity scale
(higher = more similar).  For unit vectors the squared distance `d` satisfies
`d = 2 - 2·(a·b)`, so `1 - d/2` recovers the inner product. -/
def normalize_score : IndexMetric → ℚ → ℚ
  | .innerProduct, s => s
  | .normalizedDistance, d => 1 - d / 2

/-- Modelled from the spec: the similarity score the engine reports (and
compares against the threshold) for a query vector and a stored vector. -/
def reported_score (m : IndexMetric) (q v : List ℚ) : ℚ :=
  normalize_score m (raw_score m q v)

/-! ## Stable descending sort keyed by a rational score -/

/-- Insert `x` into a list before the first element whose key does not exceed
`x`'s key.  Used to model the stable descending sort that Python's
`sorted(..., reverse=True)` performs on search results. -/
def insertDescBy {α : Type} (f : α → ℚ) (x : α) : List α → List α
  | [] => [x]
  | y :: ys => if f y ≤ f x then x :: y :: ys else y :: insertDescBy f x ys

/-- Stable sort in descending order of the key `f`.  Elements with equal keys
keep their relative input order. -/
def sortDescBy {α : Type} (f : α → ℚ) : List α → List α
  | [] => []
  | x :: xs => insertDescBy f x (sortDescBy f xs)

/-! ## Single-index retrieval -/

/-- Modelled from the spec: one entry of a merged result list — similarity
score, the metadata record's text, and the name of the index it came from. -/
structure SearchResult where
  score : ℚ
  record : String
  origin : String
deriving DecidableEq

/-- Modelled from the spec: a named, loaded collection — the index's metric
variant, its stored vectors (id = list position) and the paired metadata
records. -/
structure NamedIndex where
  name : String
  metric : IndexMetric
  vectors : List (List ℚ)
  records : List String

/-- Modelled from the spec: `topCandidates(queryVector, count)` — every stored
vector scored on the unified similarity scale, ordered descending, the best
`count` returned. -/
def top_candidates (qv : List ℚ) (ni : NamedIndex) (count : Nat) : List (Nat × ℚ) :=
  (sortDescBy Prod.snd ((ni.vectors.enum).map
    (fun p => (p.1, reported_score ni.metric qv p.2)))).take count

/-- Modelled from the spec: the over-sampled candidate pool after threshold
filtering — `3k` candidates (or the index size if smaller) whose similarity is
strictly greater than `threshold`. -/
def survivors (qv : List ℚ) (k : Nat) (ni : NamedIndex) (threshold : ℚ) : List (Nat × ℚ) :=
  (top_candidates qv ni (min (3 * k) ni.vectors.length)).filter
    (fun c => decide (threshold < c.2))

/-- Modelled from the spec: `_search_vec` — single-index search from a
pre-computed query vector: over-sample `3k` candidates, keep those strictly
above the threshold (default 0.25 on the cosine scale), return at most `k`,
each paired with its metadata record and origin index name. -/
def search_vec (qv : List ℚ) (k : Nat) (ni : NamedIndex) (threshold : ℚ := 1/4) :
    List SearchResult :=
  ((survivors qv k ni threshold).take k).map
    (fun c => { score := c.2, record := ni.records.getD c.1 (""), origin := ni.name })

/-! ## Per-turn embedding cache -/

/-- Modelled from the spec: the per-conversation-turn embedding cache keyed by
a content hash of the input text (the MD5 key is modelled by the text itself),
together with an instrumentation counter of external encoder invocations. -/
structure RagCache (V : Type) where
  cache : List (String × V)
  encodeCalls : Nat

/-- Modelled from the spec: `embed(text)` — return the cached normalized
vector on a hit; otherwise invoke the external encoder once, normalize, store
and return.  `encode` is the external embedding model and `normalize` the
engine's L2 normalization, both passed explicitly. -/
def RagCache.embed {V : Type} (encode : String → V) (normalize : V → V)
    (st : RagCache V) (text : String) : V × RagCache V :=
  match st.cache.lookup text with
  | some v => (v, st)
  | none =>
    let v := normalize (encode text)
    (v, { cache := (text, v) :: st.cache, encodeCalls := st.encodeCalls + 1 })

/-- Modelled from the spec: `clearTurn()` — empties the cache at the start of
each new conversational turn (the instrumentation counter survives, as in an
instrumented test). -/
def RagCache.clear_turn_cache {V : Type} (st : RagCache V) : RagCache V :=
  { st with cache := [] }

/-! ## Fan-out coordinator -/

/-- Modelled from the spec: `search_combined(queryText, indexes, kPerIndex)` —
compute the query embedding exactly once through the cache, run the
single-index search for every requested index, merge all result lists and
re-sort the merged sequence by score descending with the stable tie-break. -/
def search_combined (encode : String → List ℚ) (normalize : List ℚ → List ℚ)
    (st : RagCache (List ℚ)) (query : String) (idxs : List NamedIndex)
    (k : Nat) (threshold : ℚ := 1/4) : List SearchResult × RagCache (List ℚ) :=
  let p := RagCache.embed encode normalize st query
  (sortDescBy SearchResult.score
    ((idxs.map (fun ni => search_vec p.1 k ni threshold)).flatten), p.2)

/-! ## Index / metadata loading -/

/-- Modelled from the spec: a vector index artifact — a declared dimension and
a list of (integer id, stored vector) entries. -/
structure VectorIndex where
  dim : Nat
  entries : List (Nat × List ℚ)

/-- Modelled from the spec: the paired metadata artifact sharing the index's
id space. -/
structure MetadataStore where
  records : List String

/-- Modelled from the spec: the fatal startup error taxonomy for index
loading. -/
inductive LoadError where
  | sizeMismatch
  | dimMismatch
  | idRangeMismatch
deriving DecidableEq

/-- Modelled from the spec: loading a paired VectorIndex / MetadataStore —
fails with a `LoadError` when the record counts differ, when a stored vector
does not have the declared dimension, or when an id falls outside the
metadata's id range; otherwise completes with the pair. -/
def load_index_pair (vi : VectorIndex) (ms : MetadataStore) :
    Except LoadError (VectorIndex × MetadataStore) :=
  if vi.entries.length ≠ ms.records.length then .error .sizeMismatch
  else if ¬ vi.entries.all (fun e => e.2.length == vi.dim) then .error .dimMismatch
  else if ¬ vi.entries.all (fun e => decide (e.1 < ms.records.length)) then
    .error .idRangeMismatch
  else .ok (vi, ms)

/-! ## Result curation: deduplication under a character budget, dynamic k -/

/-- Python-style character slice `s[:n]`: the first `n` characters of `s`. -/
def str_take (s : String) (n : Nat) : String := { data := s.data.take n }

/-- Total character count of a snippet list. -/
def total_chars (l : List String) : Nat := (l.map String.length).sum

/-- Modelled from the spec: the accumulation loop of `deduplicate`.  `seen`
holds the 60-character prefix keys already emitted and `used` the characters
spent so far; a snippet whose key was seen is dropped, an accepted snippet is
truncated to 300 characters, and accumulation stops as soon as appending the
next snippet would exceed the budget. -/
def dedup_go (seen : List String) (budget used : Nat) : List String → List String
  | [] => []
  | s :: rest =>
    if str_take s 60 ∈ seen then dedup_go seen budget used rest
    else if budget < used + (str_take s 300).length then []
    else str_take s 300 ::
      dedup_go (str_take s 60 :: seen) budget (used + (str_take s 300).length) rest

/-- Modelled from the spec: `deduplicate_snippets(snippets, max_chars=2000)` —
near-duplicate elimination by 60-character prefix key under a total character
budget, with a 300-character per-item cap. -/
def deduplicate_snippets (snippets : List String) (max_chars : Nat := 2000) :
    List String :=
  dedup_go [] max_chars 0 snippets

/-- Word-counting loop over characters: counts maximal runs of
non-whitespace, as Python's `str.split()` does. -/
def count_words_go : Bool → List Char → Nat
  | _, [] => 0
  | inWord, c :: cs =>
    if c.isWhitespace then count_words_go false cs
    else (if inWord then 0 else 1) + count_words_go true cs

/-- Number of whitespace-separated words of a string, `len(text.split())`. -/
def word_count (s : String) : Nat := count_words_go false s.data

/-- Modelled from the spec: `dynamic_k(text, risk_score)` — 7 when the word
count exceeds 60 or the risk score is at least 0.80, 5 when the word count
lies in [30, 60], otherwise 3.  A pure function of its two arguments. -/
def dynamic_k (text : String) (risk_score : ℚ) : Nat :=
  if 60 < word_count text ∨ (4/5 : ℚ) ≤ risk_score then 7
  else if 30 ≤ word_count text ∧ word_count text ≤ 60 then 5
  else 3

/-! ## Frontend helpers, translated from `frontend/roles.js` -/

/-- The browser's `localStorage`, as a partial map from keys to stored
strings. -/
def LocalStorage : Type := String → Option String

/-- The relative URL `requireRole` redirects to. -/
def login_page : String := "../login.html"

/-- `getCurrentRole()`: reads the stored role, `localStorage.getItem` being
`none` when the key is absent. -/
def getCurrentRole (ls : LocalStorage) : Option String := ls ("rifd_role")

/-- `isLoggedIn()`: true exactly when the stored `isLoggedIn` value is the
string `"true"`. -/
def isLoggedIn (ls : LocalStorage) : Bool := ls ("isLoggedIn") == some ("true")

/-- `requireRole(allowedRoles)` from `frontend/roles.js`: redirect to the
login page (modelled as `some login_page`) when the user is not logged in,
when the stored role is missing or empty (JavaScript `!role` is true for both
`null` and `""`), or when the role is not in `allowedRoles`; otherwise proceed
(modelled as `none`).  Callers in the repository always pass an array, so
`allowedRoles` is modelled as a list. -/
def requireRole (ls : LocalStorage) (allowedRoles : List String) : Option String :=
  match getCurrentRole ls with
  | none => some login_page
  | some r =>
    if isLoggedIn ls = false ∨ r = ("") ∨ r ∉ allowedRoles then some login_page
    else none

/-- An HTTP request as assembled by `apiGet` / `apiPost`. -/
structure HttpRequest where
  method : String
  url : String
  headers : List (String × String)
  body : Option String
deriving DecidableEq

/-- An HTTP response as consumed by `apiGet` / `apiPost`: the `ok` flag, the
numeric status, the body text (read by the error path) and the parsed JSON
body of type `R` (returned by the success path). -/
structure HttpResponse (R : Type) where
  ok : Bool
  status : Nat
  bodyText : String
  jsonBody : R

/-- The request `apiGet` sends. -/
def get_request (api_base path : String) : HttpRequest :=
  { method := ("GET"), url := api_base ++ path,
    headers := [(("Content-Type"), ("application/json"))], body := none }

/-- `apiGet(path)` from `frontend/roles.js`: perform the GET request through
the supplied `do_fetch`, throw (modelled as `Except.error`) when the response
is not ok, otherwise return the parsed JSON body. -/
def apiGet {R : Type} (api_base path : String)
    (do_fetch : HttpRequest → HttpResponse R) : HttpRequest × Except String R :=
  let req := get_request api_base path
  let res := do_fetch req
  (req, if res.ok = false then
          Except.error (("GET ") ++ path ++ (" failed: ") ++ toString res.status)
        else Except.ok res.jsonBody)

/-- The request `apiPost` sends: the body is `JSON.stringify(body || {})`,
with `stringify` the external serializer and `empty_obj` the empty object
picked when `body` is absent. -/
def post_request {B : Type} (api_base path : String) (stringify : B → String)
    (empty_obj : B) (body : Option B) : HttpRequest :=
  { method := ("POST"), url := api_base ++ path,
    headers := [(("Content-Type"), ("application/json"))],
    body := some (stringify (body.getD empty_obj)) }

/-- `apiPost(path, body)` from `frontend/roles.js`: POST the serialized body,
throw (modelled as `Except.error`, message including the first 200 characters
of the response text) when the response is not ok, otherwise return the parsed
JSON body. -/
def apiPost {B R : Type} (api_base path : String) (stringify : B → String)
    (empty_obj : B) (body : Option B)
    (do_fetch : HttpRequest → HttpResponse R) : HttpRequest × Except String R :=
  let req := post_request api_base path stringify empty_obj body
  let res := do_fetch req
  (req, if res.ok = false then
          Except.error (("POST ") ++ path ++ (" failed: ") ++ toString res.status
            ++ (" - ") ++ str_take res.bodyText 200)
        else Except.ok res.jsonBody)

/-! ## Concrete fixtures used by witnesses and counterexamples -/

/-- Scenario index A of the combined-search scenario: records X and Y with
similarities 0.9 and 0.3 against the query vector `[1, 0]`. -/
def scenario_index_A : NamedIndex :=
  { name := ("A"), metric := .innerProduct,
    vectors := [[9/10, 0], [3/10, 0]], records := [("X"), ("Y")] }

/-- Scenario index B of the combined-search scenario: record Z with
similarity 0.6 against the query vector `[1, 0]`. -/
def scenario_index_B : NamedIndex :=
  { name := ("B"), metric := .innerProduct,
    vectors := [[6/10, 0]], records := [("Z")] }

/-- Scenario encoder: maps every text to the unit query vector `[1, 0]`. -/
def scenario_encode : String → List ℚ := fun _ => [1, 0]

/-- An empty per-turn cache. -/
def empty_cache : RagCache (List ℚ) := { cache := [], encodeCalls := 0 }

/-- A localStorage state with a logged-in user whose stored role is the empty
string. -/
def ls_empty_role : LocalStorage := fun k =>
  if k = ("isLoggedIn") then some ("true")
  else if k = ("rifd_role") then some ("") else none

/-! ## Lemmas about the stable descending sort -/

/-- Inserting an element is a permutation of prepending it. -/
theorem insertDescBy_perm {α : Type} (f : α → ℚ) (x : α) (l : List α) :
    List.Perm (insertDescBy f x l) (x :: l) := by
  induction l with
  | nil => exact List.Perm.refl _
  | cons y ys ih =>
    unfold insertDescBy
    by_cases h : f y ≤ f x
    · simp [h]
    · simp only [h, if_neg, if_false]
      exact (ih.cons y).trans (List.Perm.swap x y ys)

/-- The stable descending sort is a permutation of its input. -/
theorem sortDescBy_perm {α : Type} (f : α → ℚ) (l : List α) :
    List.Perm (sortDescBy f l) l := by
  induction l with
  | nil => exact List.Perm.refl _
  | cons x xs ih =>
    exact (insertDescBy_perm f x (sortDescBy f xs)).trans (ih.cons x)

/-- Inserting into a descending-sorted list keeps it descending-sorted. -/
theorem insertDescBy_sorted {α : Type} (f : α → ℚ) (x : α) (l : List α)
    (h : List.Sorted (fun a b => f b ≤ f a) l) :
    List.Sorted (fun a b => f b ≤ f a) (insertDescBy f x l) := by
  induction l with
  | nil => simp [insertDescBy]
  | cons y ys ih =>
    rw [List.sorted_cons] at h
    unfold insertDescBy
    by_cases hxy : f y ≤ f x
    · rw [if_pos hxy, List.sorted_cons]
      refine ⟨?_, List.sorted_cons.mpr h⟩
      intro b hb
      rcases List.mem_cons.mp hb with rfl | hb
      · exact hxy
      · exact le_trans (h.1 b hb) hxy
    · rw [if_neg hxy, List.sorted_cons]
      refine ⟨?_, ih h.2⟩
      intro b hb
      rcases List.mem_cons.mp ((insertDescBy_perm f x ys).mem_iff.mp hb) with rfl | hb
      · exact le_of_lt (lt_of_not_le hxy)
      · exact h.1 b hb

/-- The stable descending sort yields a descending-sorted list. -/
theorem sortDescBy_sorted {α : Type} (f : α → ℚ) (l : List α) :
    List.Sorted (fun a b => f b ≤ f a) (sortDescBy f l) := by
  induction l with
  | nil => simp [sortDescBy]
  | cons x xs ih => exact insertDescBy_sorted f x _ ih

/-- Filtering at the key of the inserted element sees the inserted element
first: every element jumped over has a strictly larger key. -/
theorem filter_insertDescBy_of_eq {α : Type} (f : α → ℚ) (x : α) (s : ℚ)
    (hx : f x = s) (l : List α) :
    (insertDescBy f x l).filter (fun a => decide (f a = s)) =
      x :: l.filter (fun a => decide (f a = s)) := by
  induction l with
  | nil => simp [insertDescBy, hx]
  | cons y ys ih =>
    unfold insertDescBy
    by_cases hxy : f y ≤ f x
    · rw [if_pos hxy, List.filter_cons, List.filter_cons]
      simp [hx]
    · have hy : ¬ f y = s := by
        intro h
        exact hxy (le_of_eq (h.trans hx.symm))
      rw [if_neg hxy, List.filter_cons, List.filter_cons]
      simp only [hy, decide_eq_true_eq, if_neg, if_false]
      rw [ih]

/-- Filtering at a key different from the inserted element's key ignores the
insertion. -/
theorem filter_insertDescBy_of_ne {α : Type} (f : α → ℚ) (x : α) (s : ℚ)
    (hx : f x ≠ s) (l : List α) :
    (insertDescBy f x l).filter (fun a => decide (f a = s)) =
      l.filter (fun a => decide (f a = s)) := by
  induction l with
  | nil => simp [insertDescBy, hx]
  | cons y ys ih =>
    unfold insertDescBy
    by_cases hxy : f y ≤ f x
    · simp [hxy, hx]
    · rw [if_neg hxy, List.filter_cons, List.filter_cons]
      by_cases hy : f y = s
      · simp only [hy]
        rw [ih]
      · simp only [hy]
        rw [ih]

/-- Stability of the descending sort: restricted to any fixed key, the sorted
output lists the elements in their original input order. -/
theorem sortDescBy_filter_eq {α : Type} (f : α → ℚ) (s : ℚ) (l : List α) :
    (sortDescBy f l).filter (fun a => decide (f a = s)) =
      l.filter (fun a => decide (f a = s)) := by
  induction l with
  | nil => rfl
  | cons x xs ih =>
    show (insertDescBy f x (sortDescBy f xs)).filter _ = _
    by_cases hx : f x = s
    · rw [filter_insertDescBy_of_eq f x s hx, ih, List.filter_cons]
      simp [hx]
    · rw [filter_insertDescBy_of_ne f x s hx, ih, List.filter_cons]
      simp [hx]

/-! ## The law of cosines for rational vectors -/

/-- For equal-length vectors, the squared distance expands to the sum of the
squared norms minus twice the inner product. -/
theorem sqDistQ_eq : ∀ (a b : List ℚ), a.length = b.length →
    sqDistQ a b = sqNormQ a + sqNormQ b - 2 * dotQ a b := by
  intro a
  induction a with
  | nil =>
    intro b h
    cases b with
    | nil => simp [sqDistQ, sqNormQ, dotQ]
    | cons y ys => simp at h
  | cons x xs ih =>
    intro b h
    cases b with
    | nil => simp at h
    | cons y ys =>
      simp only [List.length_cons, Nat.succ.injEq] at h
      simp only [sqDistQ, sqNormQ, dotQ]
      have hx := ih ys h
      simp only [sqNormQ] at hx
      rw [hx]
      ring

/-- C1: for every paired VectorIndex and MetadataStore whose sizes differ, or
whose vector dimension or id range is inconsistent, loading fails with a
`LoadError` instead of completing. -/
theorem C1_load_inconsistent_fails (vi : VectorIndex) (ms : MetadataStore)
    (h : vi.entries.length ≠ ms.records.length
      ∨ (∃ e ∈ vi.entries, e.2.length ≠ vi.dim)
      ∨ (∃ e ∈ vi.entries, ¬ e.1 < ms.records.length)) :
    ∃ err : LoadError, load_index_pair vi ms = Except.error err := by
  unfold load_index_pair
  by_cases h1 : vi.entries.length ≠ ms.records.length
  · exact ⟨.sizeMismatch, by rw [if_pos h1]⟩
  · rw [if_neg h1]
    by_cases h2 : ¬ vi.entries.all (fun e => e.2.length == vi.dim)
    · exact ⟨.dimMismatch, by rw [if_pos h2]⟩
    · rw [if_neg h2]
      by_cases h3 : ¬ vi.entries.all (fun e => decide (e.1 < ms.records.length))
      · exact ⟨.idRangeMismatch, by rw [if_pos h3]⟩
      · exfalso
        rw [not_not] at h2 h3
        rw [List.all_eq_true] at h2 h3
        rcases h with h1' | ⟨e, he, hd⟩ | ⟨e, he, hi⟩
        · exact h1 h1'
        · exact hd (Nat.beq_eq_true_eq _ _ |>.mp (h2 e he))
        · exact hi (of_decide_eq_true (h3 e he))

/-- C1 witness: an index holding one vector paired with an empty metadata
store is rejected at load time. -/
theorem C1_witness :
    ((⟨0, [(0, [])]⟩ : VectorIndex).entries.length ≠
      (⟨[]⟩ : MetadataStore).records.length) ∧
    ∃ err : LoadError,
      load_index_pair ⟨0, [(0, [])]⟩ ⟨[]⟩ = Except.error err :=
  ⟨by decide, C1_load_inconsistent_fails _ _ (Or.inl (by decide))⟩

/-- C2: for every pair of unit-norm vectors, the similarity score the engine
reports (the one compared against the threshold) equals their inner product,
whichever metric variant the underlying index was loaded with — every variant
is normalized onto the single cosine scale. -/
theorem C2_reported_score_is_inner_product (m : IndexMetric) (a b : List ℚ)
    (hlen : a.length = b.length) (ha : sqNormQ a = 1) (hb : sqNormQ b = 1) :
    reported_score m a b = dotQ a b := by
  cases m with
  | innerProduct => rfl
  | normalizedDistance =>
    simp only [reported_score, raw_score, normalize_score]
    rw [sqDistQ_eq a b hlen, ha, hb]
    ring

/-- C2 witness: evaluated at the orthogonal unit vectors `[1,0]` and `[0,1]`,
the normalized-distance variant also reports the inner product, 0. -/
theorem C2_witness :
    sqNormQ [(1:ℚ), 0] = 1 ∧ sqNormQ [(0:ℚ), 1] = 1 ∧
    reported_score IndexMetric.normalizedDistance [(1:ℚ), 0] [(0:ℚ), 1] =
      dotQ [(1:ℚ), 0] [(0:ℚ), 1] := by
  have ha : sqNormQ [(1:ℚ), 0] = 1 := by norm_num [sqNormQ, dotQ]
  have hb : sqNormQ [(0:ℚ), 1] = 1 := by norm_num [sqNormQ, dotQ]
  exact ⟨ha, hb, C2_reported_score_is_inner_product _ _ _ rfl ha hb⟩

/-- C8: `dynamic_k` returns 7 when the word count exceeds 60 or the risk
score is at least 0.80, 5 when the word count is in [30,60] with lower risk,
and 3 otherwise; in particular it maps a 2-word text at risk 0.1 to 3, a
61-word text at risk 0.1 to 7, a 45-word text at risk 0.79 to 5, and a
10-word text at risk 0.95 to 7. -/
theorem C8_dynamic_k_spec :
    (∀ (text : String) (risk : ℚ),
      ((60 < word_count text ∨ (4/5 : ℚ) ≤ risk) → dynamic_k text risk = 7) ∧
      ((30 ≤ word_count text ∧ word_count text ≤ 60 ∧ risk < 4/5) →
        dynamic_k text risk = 5) ∧
      ((word_count text < 30 ∧ risk < 4/5) → dynamic_k text risk = 3)) ∧
    dynamic_k ("short text") (1/10) = 3 ∧
    dynamic_k (String.intercalate (" ") (List.replicate 61 ("w"))) (1/10) = 7 ∧
    dynamic_k (String.intercalate (" ") (List.replicate 45 ("w"))) (79/100) = 5 ∧
    dynamic_k (String.intercalate (" ") (List.replicate 10 ("w"))) (19/20) = 7 := by
  have h2 : word_count ("short text") = 2 := by decide
  have h61 : word_count (String.intercalate (" ") (List.replicate 61 ("w"))) = 61 := by
    decide
  have h45 : word_count (String.intercalate (" ") (List.replicate 45 ("w"))) = 45 := by
    decide
  have h10 : word_count (String.intercalate (" ") (List.replicate 10 ("w"))) = 10 := by
    decide
  refine ⟨?_, ?_, ?_, ?_, ?_⟩
  · intro text risk
    refine ⟨?_, ?_, ?_⟩
    · intro h
      unfold dynamic_k
      rw [if_pos h]
    · rintro ⟨hge, hle, hrisk⟩
      have hcond : ¬ (60 < word_count text ∨ (4/5 : ℚ) ≤ risk) := by
        push_neg
        exact ⟨by omega, hrisk⟩
      unfold dynamic_k
      rw [if_neg hcond, if_pos ⟨hge, hle⟩]
    · rintro ⟨hlt, hrisk⟩
      have hcond : ¬ (60 < word_count text ∨ (4/5 : ℚ) ≤ risk) := by
        push_neg
        exact ⟨by omega, hrisk⟩
      have hcond2 : ¬ (30 ≤ word_count text ∧ word_count text ≤ 60) := by
        rintro ⟨hge, _⟩
        omega
      unfold dynamic_k
      rw [if_neg hcond, if_neg hcond2]
  · norm_num [dynamic_k, h2]
  · norm_num [dynamic_k, h61]
  · norm_num [dynamic_k, h45]
  · norm_num [dynamic_k, h10]

/-- C8 witness: the general rule applied at a concrete 61-word text with risk
0.1 yields 7. -/
theorem C8_witness :
    (60 < word_count (String.intercalate (" ") (List.replicate 61 ("w"))) ∨
      (4/5 : ℚ) ≤ 1/10) ∧
    dynamic_k (String.intercalate (" ") (List.replicate 61 ("w"))) (1/10) = 7 := by
  have h : 60 < word_count (String.intercalate (" ") (List.replicate 61 ("w"))) ∨
      (4/5 : ℚ) ≤ 1/10 := Or.inl (by decide)
  exact ⟨h, (C8_dynamic_k_spec.1 _ _).1 h⟩

/-- C5: a second `embed` for the same text within a turn returns the identical
vector and leaves the cache state (including the encoder-invocation counter)
unchanged; a miss invokes the encoder exactly once; and `search_combined`
leaves exactly the state of a single `embed` of the query, however many
indexes it fans out over. -/
theorem C5_embed_once_per_turn (encode : String → List ℚ)
    (normalize : List ℚ → List ℚ) (st : RagCache (List ℚ)) (t : String) :
    (RagCache.embed encode normalize
        (RagCache.embed encode normalize st t).2 t).1 =
      (RagCache.embed encode normalize st t).1 ∧
    (RagCache.embed encode normalize
        (RagCache.embed encode normalize st t).2 t).2 =
      (RagCache.embed encode normalize st t).2 ∧
    (st.cache.lookup t = none →
      (RagCache.embed encode normalize st t).2.encodeCalls = st.encodeCalls + 1) ∧
    (∀ (idxs : List NamedIndex) (k : Nat) (thr : ℚ),
      (search_combined encode normalize st t idxs k thr).2 =
        (RagCache.embed encode normalize st t).2) := by
  cases h : st.cache.lookup t with
  | some v => simp [RagCache.embed, h, search_combined]
  | none => simp [RagCache.embed, h, search_combined, List.lookup]

/-- C5 witness: on an empty cache the query text is a miss, and one
`search_combined` raises the encoder counter by exactly one. -/
theorem C5_witness :
    empty_cache.cache.lookup ("q") = none ∧
    (RagCache.embed scenario_encode id empty_cache ("q")).2.encodeCalls =
      empty_cache.encodeCalls + 1 :=
  ⟨rfl, (C5_embed_once_per_turn scenario_encode id empty_cache ("q")).2.2.1 rfl⟩

/-- C6: `clear_turn_cache` leaves the cache empty, so the first `embed` of any
text afterwards invokes the external encoder again (counter up by one) and
recomputes the vector rather than reusing a previously cached one. -/
theorem C6_clear_turn_recomputes {V : Type} (encode : String → V)
    (normalize : V → V) (st : RagCache V) (t : String) :
    (RagCache.clear_turn_cache st).cache = [] ∧
    (RagCache.embed encode normalize (RagCache.clear_turn_cache st) t).2.encodeCalls =
      st.encodeCalls + 1 ∧
    (RagCache.embed encode normalize (RagCache.clear_turn_cache st) t).1 =
      normalize (encode t) := by
  simp [RagCache.clear_turn_cache, RagCache.embed, List.lookup]

/-- C3: single-index search returns only candidates strictly above the
threshold, at most `k` of them, sorted descending by score, and when at most
`k` candidates pass it returns exactly the survivors (possibly none) with no
padding. -/
theorem C3_search_vec_spec (qv : List ℚ) (k : Nat) (ni : NamedIndex) (thr : ℚ) :
    (∀ r ∈ search_vec qv k ni thr, thr < r.score) ∧
    (search_vec qv k ni thr).length ≤ k ∧
    List.Sorted (fun a b => SearchResult.score b ≤ SearchResult.score a)
      (search_vec qv k ni thr) ∧
    ((survivors qv k ni thr).length ≤ k →
      search_vec qv k ni thr = (survivors qv k ni thr).map
        (fun c => { score := c.2, record := ni.records.getD c.1 (""),
                    origin := ni.name })) := by
  refine ⟨?_, ?_, ?_, ?_⟩
  · intro r hr
    unfold search_vec at hr
    rcases List.mem_map.mp hr with ⟨c, hc, rfl⟩
    have hc' : c ∈ survivors qv k ni thr := List.take_subset _ _ hc
    unfold survivors at hc'
    exact of_decide_eq_true (List.mem_filter.mp hc').2
  · unfold search_vec
    rw [List.length_map, List.length_take]
    exact min_le_left _ _
  · unfold search_vec
    rw [List.Sorted, List.pairwise_map]
    have hsorted := sortDescBy_sorted Prod.snd
      ((ni.vectors.enum).map (fun p => (p.1, reported_score ni.metric qv p.2)))
    have hsub : List.Sublist ((survivors qv k ni thr).take k)
        (sortDescBy Prod.snd
          ((ni.vectors.enum).map (fun p => (p.1, reported_score ni.metric qv p.2)))) := by
      refine (List.take_sublist _ _).trans ?_
      unfold survivors top_candidates
      exact (List.filter_sublist _).trans (List.take_sublist _ _)
    exact List.Pairwise.sublist hsub hsorted
  · intro hlen
    unfold search_vec
    rw [List.take_of_length_le hlen]

/-- C3 witness: against index A and the unit query `[1, 0]` with `k = 5`, only
the two candidates scoring 0.9 and 0.3 pass the 0.25 threshold, and the search
returns exactly those two survivors, sorted, with no padding to 5. -/
theorem C3_witness :
    (survivors [1, 0] 5 scenario_index_A (1/4)).length ≤ 5 ∧
    search_vec [1, 0] 5 scenario_index_A (1/4) =
      [⟨9/10, ("X"), ("A")⟩, ⟨3/10, ("Y"), ("A")⟩] := by
  have hs : survivors [1, 0] 5 scenario_index_A (1/4) = [(0, 9/10), (1, 3/10)] := by
    norm_num [survivors, top_candidates, scenario_index_A, List.enum, List.enumFrom,
      reported_score, raw_score, normalize_score, dotQ, sortDescBy, insertDescBy]
  have hlen : (survivors [1, 0] 5 scenario_index_A (1/4)).length ≤ 5 := by
    rw [hs]
    norm_num
  refine ⟨hlen, ?_⟩
  rw [(C3_search_vec_spec [1, 0] 5 scenario_index_A (1/4)).2.2.2 hlen, hs]
  norm_num [scenario_index_A]

/-- C4: the combined search output is the merge of the per-index result lists
globally re-sorted descending by score with ties broken by stable input order
(first-seen index, then candidate rank); in the concrete scenario where index
A yields scores 0.9 for X and 0.3 for Y and index B yields 0.6 for Z at
threshold 0.25, the merged output is X, Z, Y. -/
theorem C4_search_combined_merge :
    (∀ (encode : String → List ℚ) (normalize : List ℚ → List ℚ)
        (st : RagCache (List ℚ)) (query : String) (idxs : List NamedIndex)
        (k : Nat) (thr : ℚ),
      List.Perm (search_combined encode normalize st query idxs k thr).1
        ((idxs.map (fun ni =>
          search_vec (RagCache.embed encode normalize st query).1 k ni thr)).flatten) ∧
      List.Sorted (fun a b => SearchResult.score b ≤ SearchResult.score a)
        (search_combined encode normalize st query idxs k thr).1 ∧
      (∀ s : ℚ,
        (search_combined encode normalize st query idxs k thr).1.filter
          (fun r => decide (r.score = s)) =
        ((idxs.map (fun ni =>
          search_vec (RagCache.embed encode normalize st query).1 k ni thr)).flatten).filter
          (fun r => decide (r.score = s)))) ∧
    (search_combined scenario_encode id empty_cache ("q")
        [scenario_index_A, scenario_index_B] 5 (1/4)).1 =
      [⟨9/10, ("X"), ("A")⟩, ⟨6/10, ("Z"), ("B")⟩, ⟨3/10, ("Y"), ("A")⟩] := by
  constructor
  · intro encode normalize st query idxs k thr
    refine ⟨sortDescBy_perm _ _, sortDescBy_sorted _ _, fun s => sortDescBy_filter_eq _ _ _⟩
  · norm_num [search_combined, RagCache.embed, empty_cache, List.lookup,
      scenario_encode, search_vec, survivors, top_candidates, scenario_index_A,
      scenario_index_B, reported_score, raw_score, normalize_score, dotQ,
      sortDescBy, insertDescBy, List.enum, List.enumFrom]

/-! ## Lemmas about deduplication under the character budget -/

/-- Truncating to the 300-character cap does not change the 60-character
prefix key. -/
theorem str_take_key (s : String) : str_take (str_take s 300) 60 = str_take s 60 := by
  show String.mk ((s.data.take 300).take 60) = String.mk (s.data.take 60)
  rw [List.take_take]
  norm_num

/-- The character budget is never exceeded: the output of the accumulation
loop fits in what remains of the budget. -/
theorem dedup_go_budget : ∀ (l seen : List String) (b u : Nat),
    total_chars (dedup_go seen b u l) ≤ b - u := by
  intro l
  induction l with
  | nil => intro seen b u; simp [dedup_go, total_chars]
  | cons s rest ih =>
    intro seen b u
    unfold dedup_go
    by_cases hseen : str_take s 60 ∈ seen
    · rw [if_pos hseen]
      exact ih seen b u
    · rw [if_neg hseen]
      by_cases hb : b < u + (str_take s 300).length
      · rw [if_pos hb]
        simp [total_chars]
      · rw [if_neg hb]
        have hrest := ih (str_take s 60 :: seen) b (u + (str_take s 300).length)
        simp only [total_chars, List.map_cons, List.sum_cons] at *
        omega

/-- No emitted snippet repeats a key from `seen`, and the emitted snippets
have pairwise distinct 60-character prefix keys. -/
theorem dedup_go_keys : ∀ (l seen : List String) (b u : Nat),
    (∀ t ∈ dedup_go seen b u l, str_take t 60 ∉ seen) ∧
    List.Pairwise (fun a c => str_take a 60 ≠ str_take c 60) (dedup_go seen b u l) := by
  intro l
  induction l with
  | nil => intro seen b u; simp [dedup_go]
  | cons s rest ih =>
    intro seen b u
    unfold dedup_go
    by_cases hseen : str_take s 60 ∈ seen
    · rw [if_pos hseen]
      exact ih seen b u
    · rw [if_neg hseen]
      by_cases hb : b < u + (str_take s 300).length
      · rw [if_pos hb]
        simp
      · rw [if_neg hb]
        have hrest := ih (str_take s 60 :: seen) b (u + (str_take s 300).length)
        constructor
        · intro t ht
          rcases List.mem_cons.mp ht with rfl | ht
          · rw [str_take_key]
            exact hseen
          · intro hmem
            exact hrest.1 t ht (List.mem_cons_of_mem _ hmem)
        · rw [List.pairwise_cons]
          constructor
          · intro c hc
            rw [str_take_key]
            intro heq
            exact hrest.1 c hc (heq ▸ List.mem_cons_self _ _)
          · exact hrest.2

/-- The output preserves the relative order of first-seen non-duplicate
snippets: it is a sublist of the input truncated to the per-item cap. -/
theorem dedup_go_sublist : ∀ (l seen : List String) (b u : Nat),
    List.Sublist (dedup_go seen b u l) (l.map (fun s => str_take s 300)) := by
  intro l
  induction l with
  | nil => intro seen b u; simp [dedup_go]
  | cons s rest ih =>
    intro seen b u
    unfold dedup_go
    by_cases hseen : str_take s 60 ∈ seen
    · rw [if_pos hseen]
      exact (ih seen b u).cons _
    · rw [if_neg hseen]
      by_cases hb : b < u + (str_take s 300).length
      · rw [if_pos hb]
        simp
      · rw [if_neg hb]
        exact (ih _ b _).cons₂ _

/-- C7: the deduplicated snippet list never exceeds the character budget, no
two emitted snippets share a 60-character prefix key, the output preserves
the input order of first-seen non-duplicate snippets with each snippet capped
at 300 characters, the default budget is 2000, accumulation stops as soon as
the next snippet would exceed the budget, and an exact duplicate is
dropped. -/
theorem C7_deduplicate_spec (snippets : List String) (max_chars : Nat) :
    total_chars (deduplicate_snippets snippets max_chars) ≤ max_chars ∧
    List.Pairwise (fun a c => str_take a 60 ≠ str_take c 60)
      (deduplicate_snippets snippets max_chars) ∧
    List.Sublist (deduplicate_snippets snippets max_chars)
      (snippets.map (fun s => str_take s 300)) ∧
    (∀ t ∈ deduplicate_snippets snippets max_chars, t.length ≤ 300) ∧
    deduplicate_snippets snippets = dedup_go [] 2000 0 snippets ∧
    deduplicate_snippets [("aaaa"), ("bb")] 5 = [("aaaa")] ∧
    deduplicate_snippets [("dup"), ("dup")] = [("dup")] := by
  refine ⟨?_, (dedup_go_keys snippets [] max_chars 0).2,
    dedup_go_sublist snippets [] max_chars 0, ?_, rfl, by decide, by decide⟩
  · have h := dedup_go_budget snippets [] max_chars 0
    simpa using h
  · intro t ht
    have hmem : t ∈ snippets.map (fun s => str_take s 300) :=
      (dedup_go_sublist snippets [] max_chars 0).subset ht
    rcases List.mem_map.mp hmem with ⟨x, _, rfl⟩
    show (String.mk (x.data.take 300)).length ≤ 300
    have : (String.mk (x.data.take 300)).length = (x.data.take 300).length := rfl
    rw [this, List.length_take]
    exact min_le_left _ _

/-- C7 witness: the per-item cap applied through the theorem at the concrete
first snippet of the early-stopping example. -/
theorem C7_witness :
    ("aaaa") ∈ deduplicate_snippets [("aaaa"), ("bb")] 5 ∧
    String.length ("aaaa") ≤ 300 := by
  have hm : ("aaaa") ∈ deduplicate_snippets [("aaaa"), ("bb")] 5 := by decide
  exact ⟨hm, (C7_deduplicate_spec [("aaaa"), ("bb")] 5).2.2.2.1 ("aaaa") hm⟩

/-- C9 counterexample: a logged-in user whose stored role is the empty string
and whose `allowedRoles` contains that empty string.  The claim's redirect
conditions (not logged in / no role stored / role not a member) all fail —
the user is logged in, a role value is stored, and it is a member — yet the
code redirects, because JavaScript `!role` treats the empty string as
falsy. -/
theorem C9_counterexample :
    isLoggedIn ls_empty_role = true ∧
    getCurrentRole ls_empty_role = some ("") ∧
    ("") ∈ [("")] ∧
    requireRole ls_empty_role [("")] = some login_page := by
  refine ⟨?_, ?_, ?_, ?_⟩ <;> decide

/-- C9 amended: `requireRole` redirects to the login page exactly when the
user is not logged in, or no role is stored, or the stored role is the empty
string, or the stored role is not a member of `allowedRoles`; in every other
case it proceeds (no redirect). -/
theorem C9_requireRole_amended (ls : LocalStorage) (allowed : List String) :
    (requireRole ls allowed = some login_page ∨ requireRole ls allowed = none) ∧
    (requireRole ls allowed = some login_page ↔
      (isLoggedIn ls = false ∨ getCurrentRole ls = none ∨
        getCurrentRole ls = some ("") ∨
        (∃ r, getCurrentRole ls = some r ∧ r ∉ allowed))) := by
  cases hrole : getCurrentRole ls with
  | none => simp [requireRole, hrole]
  | some r =>
    simp only [requireRole, hrole]
    by_cases hcond : isLoggedIn ls = false ∨ r = ("") ∨ r ∉ allowed
    · rw [if_pos hcond]
      refine ⟨Or.inl rfl, ?_, fun _ => rfl⟩
      intro _
      rcases hcond with h | h | h
      · exact Or.inl h
      · exact Or.inr (Or.inr (Or.inl (by rw [h])))
      · exact Or.inr (Or.inr (Or.inr ⟨r, rfl, h⟩))
    · rw [if_neg hcond]
      refine ⟨Or.inr rfl, ?_, ?_⟩
      · intro h
        exact absurd h (by simp)
      · intro h
        exfalso
        rcases h with h | h | h | ⟨r', hr', hmem⟩
        · exact hcond (Or.inl h)
        · simp at h
        · injection h with h
          exact hcond (Or.inr (Or.inl h))
        · injection hr' with hr'
          subst hr'
          exact hcond (Or.inr (Or.inr hmem))

/-- C10: `apiGet` and `apiPost` send the assembled request, fail (throw) when
the response is not ok — with a message carrying the status, and for POST the
first 200 characters of the body text — and return the parsed JSON body when
the response is ok; the POST body is the serialization of `body`, or of the
empty object when `body` is absent. -/
theorem C10_api_helpers {B R : Type} (api_base path : String) (strf : B → String)
    (empty_obj : B) (body : Option B) (do_fetch : HttpRequest → HttpResponse R) :
    ((apiGet api_base path do_fetch).1 = get_request api_base path) ∧
    ((do_fetch (get_request api_base path)).ok = true →
      (apiGet api_base path do_fetch).2 =
        Except.ok (do_fetch (get_request api_base path)).jsonBody) ∧
    ((do_fetch (get_request api_base path)).ok = false →
      ∃ msg, (apiGet api_base path do_fetch).2 = Except.error msg) ∧
    ((apiPost api_base path strf empty_obj body do_fetch).1 =
      post_request api_base path strf empty_obj body) ∧
    ((do_fetch (post_request api_base path strf empty_obj body)).ok = true →
      (apiPost api_base path strf empty_obj body do_fetch).2 =
        Except.ok (do_fetch (post_request api_base path strf empty_obj body)).jsonBody) ∧
    ((do_fetch (post_request api_base path strf empty_obj body)).ok = false →
      ∃ msg, (apiPost api_base path strf empty_obj body do_fetch).2 =
        Except.error msg) ∧
    ((post_request api_base path strf empty_obj body).body =
      some (strf (body.getD empty_obj))) ∧
    ((post_request api_base path strf empty_obj none).body =
      some (strf empty_obj)) := by
  refine ⟨rfl, ?_, ?_, rfl, ?_, ?_, rfl, rfl⟩
  · intro h
    simp [apiGet, h]
  · intro h
    refine ⟨("GET ") ++ path ++ (" failed: ")
      ++ toString (do_fetch (get_request api_base path)).status, ?_⟩
    simp [apiGet, h]
  · intro h
    simp [apiPost, h]
  · intro h
    refine ⟨("POST ") ++ path ++ (" failed: ")
      ++ toString (do_fetch (post_request api_base path strf empty_obj body)).status
      ++ (" - ")
      ++ str_take (do_fetch (post_request api_base path strf empty_obj body)).bodyText 200, ?_⟩
    simp [apiPost, h]

/-- C10 witness: a concrete ok fetch returns the parsed JSON body, and a
concrete failing fetch returns an error. -/
theorem C10_witness :
    ((fun _ => ⟨true, 200, (""), (5 : Nat)⟩ :
        HttpRequest → HttpResponse Nat) (get_request ("http://x") ("/p"))).ok = true ∧
    (apiGet ("http://x") ("/p")
      (fun _ => (⟨true, 200, (""), (5 : Nat)⟩ : HttpResponse Nat))).2 = Except.ok 5 ∧
    ((fun _ => ⟨false, 500, ("boom"), (0 : Nat)⟩ :
        HttpRequest → HttpResponse Nat) (get_request ("http://x") ("/p"))).ok = false ∧
    (∃ msg, (apiGet ("http://x") ("/p")
      (fun _ => (⟨false, 500, ("boom"), (0 : Nat)⟩ : HttpResponse Nat))).2 =
        Except.error msg) := by
  refine ⟨rfl, ?_, rfl, ?_⟩
  · exact (C10_api_helpers (B := Nat) ("http://x") ("/p") (fun _ => ("")) 0 none
      (fun _ => (⟨true, 200, (""), (5 : Nat)⟩ : HttpResponse Nat))).2.1 rfl
  · exact (C10_api_helpers (B := Nat) ("http://x") ("/p") (fun _ => ("")) 0 none
      (fun _ => (⟨false, 500, ("boom"), (0 : Nat)⟩ : HttpResponse Nat))).2.2.1 rfl
